import Mathlib

/-!
Shallow embedding of the SpaceX launch-records dashboard
(`Dashboard.ipynb`): the in-memory launch table and the two reactive
callbacks, `get_pie_chart` and `update_scatter_chart`, together with
proofs of the filter/aggregation properties stated in the specification.
-/

set_option maxHeartbeats 1000000

namespace SpacexDashboard

/-- One row of `spacex_launch_dash.csv`: launch-site identifier,
payload mass in kilograms, outcome class (`class` column, 1 = success,
0 = failure; `class` is a Lean keyword so the field is named `cls`),
and booster-version category. -/
structure LaunchRecord where
  site : String
  payloadMass : Int
  cls : Nat
  boosterVersionCategory : String
deriving DecidableEq

/-- The in-memory dataframe `spacex_df`: an ordered list of rows. -/
abbrev Table := List LaunchRecord

/-- The payload filter of `update_scatter_chart`:
`spacex_df[(spacex_df['Payload Mass (kg)'] >= low) & (spacex_df['Payload Mass (kg)'] <= high)]`. -/
def filterByPayloadRange (table : Table) (low high : Int) : Table :=
  table.filter (fun r => decide (low ≤ r.payloadMass) && decide (r.payloadMass ≤ high))

/-- The site filter used by both callbacks:
`df[df['Launch Site'] == entered_site]` (exact, case-sensitive match). -/
def filterBySite (table : Table) (site : String) : Table :=
  table.filter (fun r => r.site == site)

/-- The single-site branch of `get_pie_chart`:
`filtered_df.groupby(['class']).size().reset_index(name='class count')` —
for each class value observed among the site's rows, the number of rows
with that class.  A class value with no rows produces no group. -/
def siteOutcomeCounts (table : Table) (site : String) : List (Nat × Nat) :=
  let filtered := filterBySite table site
  ((filtered.map (fun r => r.cls)).dedup).map
    (fun c => (c, (filtered.filter (fun r => r.cls == c)).length))

/-- The `ALL` branch of `get_pie_chart`:
`px.pie(spacex_df, values='class', names='Launch Site', ...)` sums the
`class` column per launch site, so each site is paired with the sum of
its outcome-class values (its success count, classes being 0/1). -/
def siteSuccessTotals (table : Table) : List (String × Nat) :=
  ((table.map (fun r => r.site)).dedup).map
    (fun s => (s, ((filterBySite table s).map (fun r => r.cls)).sum))

/-- The data handed to the pie renderer: one slice list per branch. -/
inductive PieFigure where
  | allSites (data : List (String × Nat))
  | singleSite (site : String) (data : List (Nat × Nat))
deriving DecidableEq

/-- The pie-chart callback `get_pie_chart(entered_site)`, with the table
passed explicitly in place of the module-level `spacex_df`. -/
def get_pie_chart (table : Table) (entered_site : String) : PieFigure :=
  if entered_site == "ALL" then
    .allSites (siteSuccessTotals table)
  else
    .singleSite entered_site (siteOutcomeCounts table entered_site)

/-- The row set plotted by `update_scatter_chart(entered_site, [low, high])`:
payload-range filter first, then the site filter unless `entered_site` is
`ALL`. -/
def scatterRows (table : Table) (entered_site : String) (low high : Int) : Table :=
  let df := filterByPayloadRange table low high
  if entered_site == "ALL" then df else filterBySite df entered_site

/-- A figure produced by either callback, for modelling call sequences. -/
inductive Figure where
  | pie (fig : PieFigure)
  | scatter (rows : Table)
deriving DecidableEq

/-- A control-surface event: a site-dropdown value reaching the pie
callback, or a (site, payload-range) pair reaching the scatter callback. -/
inductive Event where
  | pieCall (site : String)
  | scatterCall (site : String) (low high : Int)
deriving DecidableEq

/-- One callback invocation as a state transformer on the loaded table:
the callback computes its figure from the table and leaves the table as
the code leaves `spacex_df` — unrebound, every pandas operation in both
callbacks returning a fresh frame. -/
def applyEvent (table : Table) : Event → Figure × Table
  | .pieCall s => (.pie (get_pie_chart table s), table)
  | .scatterCall s low high => (.scatter (scatterRows table s low high), table)

/-- Run a sequence of callback invocations, threading the table state and
collecting the figures in order. -/
def runEvents (table : Table) : List Event → List Figure × Table
  | [] => ([], table)
  | e :: es =>
    let (fig, table') := applyEvent table e
    let (figs, table'') := runEvents table' es
    (fig :: figs, table'')

/-- The three-row scenario table of the specification. -/
def demoTable : Table :=
  [⟨"SiteA", 500, 1, "v1"⟩, ⟨"SiteA", 1500, 0, "v1"⟩, ⟨"SiteB", 3000, 1, "v2"⟩]

/-- Splitting a sum of `g` over a list along a Boolean predicate. -/
lemma sum_map_filter_add {α : Type} (p : α → Bool) (g : α → Nat) (l : List α) :
    ((l.filter p).map g).sum + ((l.filter (fun x => !p x)).map g).sum = (l.map g).sum := by
  induction l with
  | nil => simp
  | cons a l ih => by_cases h : p a <;> simp [h] <;> omega

/-- Summing `g` fiberwise over a duplicate-free key list that covers every
element's key recovers the total sum of `g` over the list. -/
lemma sum_map_fiber {α κ : Type} [DecidableEq κ] (f : α → κ) (g : α → Nat) :
    ∀ ks : List κ, ks.Nodup → ∀ l : List α, (∀ x ∈ l, f x ∈ ks) →
      (ks.map (fun c => ((l.filter (fun x => f x == c)).map g).sum)).sum = (l.map g).sum := by
  intro ks
  induction ks with
  | nil =>
    intro _ l hcov
    have hl : l = [] := by
      cases l with
      | nil => rfl
      | cons a t => exact absurd (hcov a (by simp)) (by simp)
    subst hl
    simp
  | cons c ks ih =>
    intro hnd l hcov
    obtain ⟨hc, hnd'⟩ := List.nodup_cons.mp hnd
    have hrest : ∀ c' ∈ ks,
        l.filter (fun x => f x == c') =
          (l.filter (fun x => !(f x == c))).filter (fun x => f x == c') := by
      intro c' hc'
      rw [List.filter_filter]
      refine (List.filter_congr ?_)
      intro x _
      cases hfc : (f x == c') with
      | false => simp
      | true =>
        have hfx : f x = c' := by simpa using hfc
        have hne : c' ≠ c := fun hcc => hc (hcc ▸ hc')
        simp [hfx, hne]
    have hcov' : ∀ x ∈ l.filter (fun x => !(f x == c)), f x ∈ ks := by
      intro x hx
      obtain ⟨hxl, hxc⟩ := List.mem_filter.mp hx
      have hmem := hcov x hxl
      simp only [Bool.not_eq_true', beq_eq_false_iff_ne, ne_eq] at hxc
      rcases List.mem_cons.mp hmem with h | h
      · exact absurd h hxc
      · exact h
    have hmaps : ks.map (fun c' => ((l.filter (fun x => f x == c')).map g).sum)
        = ks.map (fun c' =>
            (((l.filter (fun x => !(f x == c))).filter (fun x => f x == c')).map g).sum) := by
      refine List.map_congr_left ?_
      intro c' hc'
      rw [hrest c' hc']
    simp only [List.map_cons, List.sum_cons]
    rw [hmaps, ih hnd' _ hcov']
    exact sum_map_filter_add (fun x => f x == c) g l

/-- Fiberwise row counts over a duplicate-free covering key list sum to
the length of the list. -/
lemma length_fiber {α κ : Type} [DecidableEq κ] (f : α → κ)
    (ks : List κ) (hnd : ks.Nodup) (l : List α) (hcov : ∀ x ∈ l, f x ∈ ks) :
    (ks.map (fun c => (l.filter (fun x => f x == c)).length)).sum = l.length := by
  have h := sum_map_fiber f (fun _ => 1) ks hnd l hcov
  simpa using h

/-- For rows whose outcome class is 0 or 1, summing the class column
counts the rows with class 1. -/
lemma sum_cls_eq_length_filter (l : Table) (h : ∀ r ∈ l, r.cls = 0 ∨ r.cls = 1) :
    (l.map (fun r => r.cls)).sum = (l.filter (fun r => r.cls == 1)).length := by
  induction l with
  | nil => simp
  | cons a l ih =>
    have ha := h a (by simp)
    have ih' := ih (fun r hr => h r (by simp [hr]))
    rcases ha with h0 | h0 <;> simp [h0, List.filter_cons] <;> omega

/-- C1 (counterexample): on a table whose only `SiteB` row has outcome
class 1, the single-site branch of the pie computation returns a mapping
in which class 0 is absent — `groupby(['class']).size()` produces no
group for a class with no rows — refuting the claim that both outcome
classes are always present. -/
theorem c1_counterexample :
    ¬ ((∃ p ∈ siteOutcomeCounts [⟨"SiteB", 3000, 1, "v2"⟩] "SiteB", p.1 = 0) ∧
       (∃ p ∈ siteOutcomeCounts [⟨"SiteB", 3000, 1, "v2"⟩] "SiteB", p.1 = 1)) := by
  decide

/-- C1 (amended): for every table and site, `siteOutcomeCounts` lists
exactly the outcome classes observed among the rows of that site — a
class with no rows is omitted, not zero-filled — and the per-class
counts sum to the total number of rows whose site field equals the
given site. -/
theorem c1_siteOutcomeCounts_classes_and_sum (table : Table) (site : String) :
    (∀ c : Nat, (∃ p ∈ siteOutcomeCounts table site, p.1 = c) ↔
       ∃ r ∈ filterBySite table site, r.cls = c) ∧
    ((siteOutcomeCounts table site).map Prod.snd).sum = (filterBySite table site).length := by
  constructor
  · intro c
    simp only [siteOutcomeCounts, List.mem_map, List.mem_dedup]
    constructor
    · rintro ⟨p, ⟨c', ⟨r, hr, hrc⟩, rfl⟩, hp⟩
      simp only at hp
      subst hp
      exact ⟨r, hr, hrc⟩
    · rintro ⟨r, hr, hrc⟩
      exact ⟨(c, ((filterBySite table site).filter (fun r => r.cls == c)).length),
        ⟨c, ⟨r, hr, hrc⟩, rfl⟩, rfl⟩
  · have h := length_fiber (fun r : LaunchRecord => r.cls)
      (((filterBySite table site).map (fun r => r.cls)).dedup) (List.nodup_dedup _)
      (filterBySite table site)
      (by
        intro x hx
        simp only [List.mem_dedup, List.mem_map]
        exact ⟨x, hx, rfl⟩)
    simpa [siteOutcomeCounts, List.map_map, Function.comp] using h

/-- C2: for every table and bounds `low ≤ high`, the payload filter of
`update_scatter_chart` keeps exactly the rows whose payload mass lies in
`[low, high]`, both endpoints included. -/
theorem c2_filterByPayloadRange_mem (table : Table) (low high : Int)
    (h : low ≤ high) (r : LaunchRecord) :
    r ∈ filterByPayloadRange table low high ↔
      r ∈ table ∧ low ≤ r.payloadMass ∧ r.payloadMass ≤ high := by
  simp [filterByPayloadRange, List.mem_filter, and_assoc]

/-- C2 witness: on the scenario table with range `[500, 3000]`, the row
with payload mass exactly 500 (the lower endpoint) is kept. -/
theorem c2_witness :
    (500 : Int) ≤ 3000 ∧
      (⟨"SiteA", 500, 1, "v1"⟩ : LaunchRecord) ∈ filterByPayloadRange demoTable 500 3000 :=
  ⟨by decide,
    (c2_filterByPayloadRange_mem demoTable 500 3000 (by decide)
      ⟨"SiteA", 500, 1, "v1"⟩).mpr (by decide)⟩

/-- C3: the payload filter is idempotent — filtering an already-filtered
table by the same bounds returns it unchanged. -/
theorem c3_filterByPayloadRange_idem (table : Table) (low high : Int) (h : low ≤ high) :
    filterByPayloadRange (filterByPayloadRange table low high) low high =
      filterByPayloadRange table low high := by
  simp [filterByPayloadRange, List.filter_filter]

/-- C3 witness: idempotence at the scenario table with range `[0, 1000]`. -/
theorem c3_witness :
    (0 : Int) ≤ 1000 ∧
      filterByPayloadRange (filterByPayloadRange demoTable 0 1000) 0 1000 =
        filterByPayloadRange demoTable 0 1000 :=
  ⟨by decide, c3_filterByPayloadRange_idem demoTable 0 1000 (by decide)⟩

/-- C4: when every row's outcome class is 0 or 1, the per-site values of
the `ALL` branch of the pie computation (per-site sums of the class
column) sum across all sites to the number of rows with class 1. -/
theorem c4_siteSuccessTotals_sum (table : Table)
    (h : ∀ r ∈ table, r.cls = 0 ∨ r.cls = 1) :
    ((siteSuccessTotals table).map Prod.snd).sum =
      (table.filter (fun r => r.cls == 1)).length := by
  have hfib := sum_map_fiber (fun r : LaunchRecord => r.site) (fun r => r.cls)
    ((table.map (fun r => r.site)).dedup) (List.nodup_dedup _) table
    (by
      intro x hx
      simp only [List.mem_dedup, List.mem_map]
      exact ⟨x, hx, rfl⟩)
  have hbin := sum_cls_eq_length_filter table h
  calc ((siteSuccessTotals table).map Prod.snd).sum
      = ((table.map (fun r => r.site)).dedup.map
          (fun s => ((table.filter (fun r => r.site == s)).map (fun r => r.cls)).sum)).sum := by
        simp [siteSuccessTotals, filterBySite, List.map_map, Function.comp_def]
    _ = (table.map (fun r => r.cls)).sum := hfib
    _ = (table.filter (fun r => r.cls == 1)).length := hbin

/-- C4 witness: on the scenario table the per-site success totals sum to
the number of class-1 rows. -/
theorem c4_witness :
    (∀ r ∈ demoTable, r.cls = 0 ∨ r.cls = 1) ∧
      ((siteSuccessTotals demoTable).map Prod.snd).sum =
        (demoTable.filter (fun r => r.cls == 1)).length :=
  ⟨by decide, c4_siteSuccessTotals_sum demoTable (by decide)⟩

/-- C5: the payload filter and the site filter commute — applying them
in either order yields the same row subset. -/
theorem c5_filters_commute (table : Table) (site : String) (low high : Int) :
    filterBySite (filterByPayloadRange table low high) site =
      filterByPayloadRange (filterBySite table site) low high := by
  simp only [filterBySite, filterByPayloadRange, List.filter_filter]
  refine List.filter_congr ?_
  intro x _
  exact Bool.and_comm _ _

/-- C6: the specification's three-row scenario — with site `ALL` the pie
aggregation pairs SiteA with 1 and SiteB with 1; with site `SiteA` the
pie aggregation is the two-entry mapping containing class 0 with count 1
and class 1 with count 1; with payload range `[0, 1000]` and site `ALL`
the scatter aggregation is exactly the single (SiteA, 500, 1) row. -/
theorem c6_scenario :
    get_pie_chart demoTable "ALL" = .allSites [("SiteA", 1), ("SiteB", 1)] ∧
    get_pie_chart demoTable "SiteA" = .singleSite "SiteA" (siteOutcomeCounts demoTable "SiteA") ∧
    (0, 1) ∈ siteOutcomeCounts demoTable "SiteA" ∧
    (1, 1) ∈ siteOutcomeCounts demoTable "SiteA" ∧
    (siteOutcomeCounts demoTable "SiteA").length = 2 ∧
    scatterRows demoTable "ALL" 0 1000 = [⟨"SiteA", 500, 1, "v1"⟩] := by
  decide

/-- C7: a selected site that is not `ALL` and occurs in no row makes
both callbacks return an empty result — an empty class mapping for the
pie and an empty row set for the scatter — rather than failing. -/
theorem c7_unknown_site_empty (table : Table) (site : String) (low high : Int)
    (hsite : site ≠ "ALL") (habs : ∀ r ∈ table, r.site ≠ site) :
    get_pie_chart table site = .singleSite site [] ∧
      scatterRows table site low high = [] := by
  have hfs : ∀ l : Table, (∀ r ∈ l, r.site ≠ site) → filterBySite l site = [] := by
    intro l hl
    refine List.filter_eq_nil_iff.mpr ?_
    intro r hr
    simp [hl r hr]
  constructor
  · have h1 : filterBySite table site = [] := hfs table habs
    simp [get_pie_chart, hsite, siteOutcomeCounts, h1]
  · have h2 : ∀ r ∈ filterByPayloadRange table low high, r.site ≠ site := by
      intro r hr
      exact habs r (List.mem_filter.mp hr).1
    simp [scatterRows, hsite, hfs _ h2]

/-- C7 witness: site `SiteC` occurs nowhere in the scenario table, and
both callbacks return empty results for it. -/
theorem c7_witness :
    ("SiteC" ≠ "ALL" ∧ ∀ r ∈ demoTable, r.site ≠ "SiteC") ∧
      get_pie_chart demoTable "SiteC" = .singleSite "SiteC" [] ∧
      scatterRows demoTable "SiteC" 0 10000 = [] :=
  ⟨⟨by decide, by decide⟩,
    c7_unknown_site_empty demoTable "SiteC" 0 10000 (by decide) (by decide)⟩

/-- C8: in the call sequence `ALL`, then any site, then `ALL`, the third
pie figure equals the first — the callback is a pure function of the
table and the site, accumulating no state across calls. -/
theorem c8_pie_all_site_all_pure (table : Table) (site : String) :
    ((runEvents table [.pieCall "ALL", .pieCall site, .pieCall "ALL"]).1)[2]? =
      ((runEvents table [.pieCall "ALL", .pieCall site, .pieCall "ALL"]).1)[0]? := by
  simp [runEvents, applyEvent]

/-- C9: no callback invocation, and no sequence of invocations, changes
the loaded table — both callbacks leave the table exactly as it was. -/
theorem c9_table_unchanged (table : Table) (events : List Event) :
    (∀ e : Event, (applyEvent table e).2 = table) ∧ (runEvents table events).2 = table := by
  constructor
  · intro e
    cases e <;> rfl
  · induction events generalizing table with
    | nil => rfl
    | cons e es ih => cases e <;> simp [runEvents, applyEvent, ih]

/-- C10: with inverted bounds (`high < low`) the payload filter keeps no
row, so the scatter computation returns the empty row set for every
site. -/
theorem c10_inverted_range_empty (table : Table) (site : String) (low high : Int)
    (h : high < low) :
    filterByPayloadRange table low high = [] ∧ scatterRows table site low high = [] := by
  have h1 : filterByPayloadRange table low high = [] := by
    refine List.filter_eq_nil_iff.mpr ?_
    intro r _
    simp only [Bool.and_eq_true, decide_eq_true_eq, not_and]
    intro h2
    omega
  refine ⟨h1, ?_⟩
  simp [scatterRows, h1, filterBySite]

/-- C10 witness: inverted range `[1000, 0]` on the scenario table yields
empty results. -/
theorem c10_witness :
    (0 : Int) < 1000 ∧ filterByPayloadRange demoTable 1000 0 = [] ∧
      scatterRows demoTable "ALL" 1000 0 = [] :=
  ⟨by decide,
    (c10_inverted_range_empty demoTable "ALL" 1000 0 (by decide)).1,
    (c10_inverted_range_empty demoTable "ALL" 1000 0 (by decide)).2⟩

end SpacexDashboard
